import Mathlib

/-!
Verification development for the decision-table normalization and
test-code-generation engines of the decide-test-mcp repository.

The TypeScript sources are shallowly embedded:
* `src/parsers/decision-table-parser.ts` (class `DecisionTableParser`):
  `parseValue`, `generateTestName`, `convertRowToTestCase`,
  `convertRowsToTestCases`, `parseMarkdownTable`, `parseMarkdown`,
  `parseJSON`, `extractFeatureName`.
* `src/generators/test-code-generator.ts` (class `TestCodeGenerator`):
  `escapeString`, `sanitizeFileName`, `generatePlaywrightStep`,
  `generatePlaywrightTestCase`, `generatePlaywrightTest`,
  `generateApiStep`, `generateApiTestCase`, `generateApiTest`,
  `generateTestFile`, `groupTestCases`, `generate`.

JavaScript dynamic values are modelled by `JsVal`.  JS numbers are modelled
as exact scaled decimals (integer mantissa over a power of ten); every number
the embedded code manipulates originates from a decimal, hexadecimal, octal
or binary literal, so this is exact, abstracting only IEEE-754 rounding of
long decimals and exponential display of extreme magnitudes.  Third-party
libraries (`papaparse`, `marked`) and the filesystem are modelled as inputs:
CSV ingestion starts from header-keyed rows, Markdown ingestion from the
lexer's block-token stream, and file-system effects are an oracle `Fs`
deciding mkdir/write success.  JS object iteration is modelled in insertion
order (the embedded call sites never use integer-like keys, where JS would
reorder).
-/

namespace DTMcp

/-- Apostrophe character, used pervasively by the generated-code templates. -/
def quoteC : Char := Char.ofNat 39

/-- Double-quote character. -/
def dquoteC : Char := Char.ofNat 34

/-- Scaled-decimal model of a finite JS number: the value `m / 10 ^ e`. -/
structure JNum where
  m : Int
  e : Nat
deriving DecidableEq, Repr

/-- Result of JS `Number(...)` when it is not `NaN`. -/
inductive NumVal where
  | fin (n : JNum)
  | posInf
  | negInf
deriving DecidableEq, Repr

mutual
/-- Model of a JavaScript runtime value (JSON values plus `undefined`). -/
inductive JsVal where
  | undefined
  | null
  | bool (b : Bool)
  | num (n : NumVal)
  | str (s : String)
  | arr (elems : JsList)
  | obj (fields : JsFields)
/-- List of JS values (array elements). -/
inductive JsList where
  | nil
  | cons (hd : JsVal) (tl : JsList)
/-- Ordered fields of a JS object. -/
inductive JsFields where
  | fnil
  | fcons (key : String) (val : JsVal) (tl : JsFields)
end

/-- Build a `JsList` from a Lean list. -/
def jsListOf : List JsVal → JsList
  | [] => .nil
  | x :: xs => .cons x (jsListOf xs)

/-- Build `JsFields` from a Lean association list. -/
def jsFieldsOf : List (String × JsVal) → JsFields
  | [] => .fnil
  | (k, v) :: xs => .fcons k v (jsFieldsOf xs)

/-- JS array literal. -/
def jsArr (l : List JsVal) : JsVal := .arr (jsListOf l)

/-- JS object literal. -/
def jsObj (l : List (String × JsVal)) : JsVal := .obj (jsFieldsOf l)

/-- Back to a Lean list. -/
def JsList.toList : JsList → List JsVal
  | .nil => []
  | .cons x xs => x :: xs.toList

/-- Back to a Lean association list. -/
def JsFields.toList : JsFields → List (String × JsVal)
  | .fnil => []
  | .fcons k v xs => (k, v) :: xs.toList

/-- First-match field lookup (JS objects cannot repeat keys). -/
def JsFields.lookup : JsFields → String → Option JsVal
  | .fnil, _ => none
  | .fcons k v xs, key => if k = key then some v else xs.lookup key

/-- Number of fields. -/
def JsFields.length : JsFields → Nat
  | .fnil => 0
  | .fcons _ _ xs => 1 + xs.length

/-- Number of elements. -/
def JsList.length : JsList → Nat
  | .nil => 0
  | .cons _ xs => 1 + xs.length

/-- JS truthiness of a value (`NaN` cannot occur in a stored `JsVal`). -/
def truthy : JsVal → Bool
  | .undefined => false
  | .null => false
  | .bool b => b
  | .num (.fin n) => n.m != 0
  | .num _ => true
  | .str s => s != ""
  | .arr _ => true
  | .obj _ => true

/-- JS `StrWhiteSpace` characters (ASCII controls, NBSP, BOM, Unicode spaces,
line/paragraph separators). -/
def isJsWhitespace (c : Char) : Bool :=
  decide (c = ' ' ∨ c = '\t' ∨ c = '\n' ∨ c = '\r' ∨ c.toNat = 11 ∨ c.toNat = 12 ∨
    c.toNat = 0xa0 ∨ c.toNat = 0xfeff ∨ c.toNat = 0x1680 ∨
    (0x2000 ≤ c.toNat ∧ c.toNat ≤ 0x200a) ∨
    c.toNat = 0x2028 ∨ c.toNat = 0x2029 ∨ c.toNat = 0x202f ∨ c.toNat = 0x205f ∨
    c.toNat = 0x3000)

/-- Strip JS whitespace from both ends of a character list. -/
def trimList (l : List Char) : List Char :=
  ((l.dropWhile isJsWhitespace).reverse.dropWhile isJsWhitespace).reverse

/-- JS `String.prototype.trim`. -/
def jsTrim (s : String) : String := .mk (trimList s.data)

/-- JS `String.prototype.toLowerCase` (ASCII fragment; the embedded call
sites only feed it header names and priority cells). -/
def jsToLower (s : String) : String := .mk (s.data.map Char.toLower)

/-- Decimal digit test. -/
def isDigitChar (c : Char) : Bool := decide ('0' ≤ c ∧ c ≤ '9')

/-- Value of one decimal digit. -/
def digitVal (c : Char) : Nat := c.toNat - 48

/-- Decimal value of a digit string. -/
def digitsToNat (l : List Char) : Nat := l.foldl (fun a c => a * 10 + digitVal c) 0

/-- Hexadecimal digit test. -/
def isHexDigit (c : Char) : Bool :=
  decide (('0' ≤ c ∧ c ≤ '9') ∨ ('a' ≤ c ∧ c ≤ 'f') ∨ ('A' ≤ c ∧ c ≤ 'F'))

/-- Octal digit test. -/
def isOctDigit (c : Char) : Bool := decide ('0' ≤ c ∧ c ≤ '7')

/-- Binary digit test. -/
def isBinDigit (c : Char) : Bool := decide (c = '0' ∨ c = '1')

/-- Value of one digit in an arbitrary radix (0-9, a-f, A-F). -/
def radixVal (c : Char) : Nat :=
  if c.toNat ≥ 97 then c.toNat - 87 else if c.toNat ≥ 65 then c.toNat - 55 else c.toNat - 48

/-- Radix value of a digit string. -/
def radixToNat (base : Nat) (l : List Char) : Nat :=
  l.foldl (fun a c => a * base + radixVal c) 0

/-- Assemble the scaled decimal `mant * 10 ^ (expv - fracLen)`. -/
def mkJNum (mant : Int) (fracLen : Nat) (expv : Int) : JNum :=
  if (fracLen : Int) ≤ expv then ⟨mant * 10 ^ (expv - fracLen).toNat, 0⟩
  else ⟨mant, ((fracLen : Int) - expv).toNat⟩

/-- Parse an optional trailing exponent part (`e`/`E`, optional sign,
digits); the whole remainder must be consumed. -/
def parseExpTail : List Char → Option Int
  | [] => some 0
  | c :: cs =>
    if c = 'e' ∨ c = 'E' then
      match cs with
      | '+' :: ds => if ds ≠ [] ∧ ds.all isDigitChar then some ((digitsToNat ds : Int)) else none
      | '-' :: ds => if ds ≠ [] ∧ ds.all isDigitChar then some (-(digitsToNat ds : Int)) else none
      | ds => if ds ≠ [] ∧ ds.all isDigitChar then some ((digitsToNat ds : Int)) else none
    else none

/-- Parse an unsigned decimal literal (`digits`, `digits.digits?`,
`.digits`, with optional exponent), consuming the whole input. -/
def parseDecBody (cs : List Char) : Option JNum :=
  let ip := cs.takeWhile isDigitChar
  let rest := cs.dropWhile isDigitChar
  match rest with
  | [] => if ip = [] then none else some ⟨(digitsToNat ip : Int), 0⟩
  | '.' :: rest2 =>
    let fp := rest2.takeWhile isDigitChar
    let rest3 := rest2.dropWhile isDigitChar
    if ip = [] ∧ fp = [] then none
    else match parseExpTail rest3 with
      | some expv => some (mkJNum ((digitsToNat (ip ++ fp) : Int)) fp.length expv)
      | none => none
  | _ =>
    if ip = [] then none
    else match parseExpTail rest with
      | some expv => some (mkJNum ((digitsToNat ip : Int)) 0 expv)
      | none => none

/-- Sign-adjusted body: `Infinity` or a decimal literal. -/
def parseSignedBody (cs : List Char) : Option NumVal :=
  if cs = "Infinity".data then some .posInf
  else (parseDecBody cs).map .fin

/-- Negate a JS number. -/
def numNeg : NumVal → NumVal
  | .fin n => .fin ⟨-n.m, n.e⟩
  | .posInf => .negInf
  | .negInf => .posInf

/-- Parse a radix-prefixed integer body (after `0x`/`0o`/`0b`). -/
def parseRadix (base : Nat) (good : Char → Bool) (ds : List Char) : Option NumVal :=
  if ds ≠ [] ∧ ds.all good then some (.fin ⟨(radixToNat base ds : Int), 0⟩) else none

/-- JS `Number(string)`: `none` models `NaN`.  Follows the ECMAScript
`StringNumericLiteral` grammar: trimmed empty means `0`; sign allowed on
decimal literals and `Infinity`; unsigned `0x`/`0o`/`0b` integers. -/
def jsStringToNumber (s : String) : Option NumVal :=
  match trimList s.data with
  | [] => some (.fin ⟨0, 0⟩)
  | '+' :: rest => parseSignedBody rest
  | '-' :: rest => (parseSignedBody rest).map numNeg
  | '0' :: 'x' :: rest => parseRadix 16 isHexDigit rest
  | '0' :: 'X' :: rest => parseRadix 16 isHexDigit rest
  | '0' :: 'o' :: rest => parseRadix 8 isOctDigit rest
  | '0' :: 'O' :: rest => parseRadix 8 isOctDigit rest
  | '0' :: 'b' :: rest => parseRadix 2 isBinDigit rest
  | '0' :: 'B' :: rest => parseRadix 2 isBinDigit rest
  | cs => parseSignedBody cs

/-- Drop factors of ten shared between mantissa and scale. -/
def stripTenFactors : Int → Nat → Int × Nat
  | m, 0 => (m, 0)
  | m, e + 1 =>
    if m = 0 then (0, 0)
    else if m % 10 = 0 then stripTenFactors (m / 10) e
    else (m, e + 1)

/-- JS decimal rendering of a finite number (`String(n)`); extreme
magnitudes that JS would print exponentially do not occur at the embedded
call sites. -/
def jnumToString (n : JNum) : String :=
  let p := stripTenFactors n.m n.e
  if p.2 = 0 then Int.repr p.1
  else
    let sign := if p.1 < 0 then "-" else ""
    let a := p.1.natAbs
    let ipart := a / 10 ^ p.2
    let fpart := a % 10 ^ p.2
    let fstr := Nat.repr fpart
    let fpad := String.mk (List.replicate (p.2 - fstr.length) '0') ++ fstr
    sign ++ Nat.repr ipart ++ "." ++ fpad

/-- JS `String()` of a number. -/
def numValToString : NumVal → String
  | .fin n => jnumToString n
  | .posInf => "Infinity"
  | .negInf => "-Infinity"

mutual
/-- JS `String(v)` / template-literal interpolation of a value. -/
def toTemplateString : JsVal → String
  | .undefined => "undefined"
  | .null => "null"
  | .bool b => if b then "true" else "false"
  | .num n => numValToString n
  | .str s => s
  | .arr xs => arrJoinString xs
  | .obj _ => "[object Object]"
/-- Array `toString`: elements joined by commas. -/
def arrJoinString : JsList → String
  | .nil => ""
  | .cons x .nil => arrElemString x
  | .cons x (.cons y tl) => arrElemString x ++ "," ++ arrJoinString (.cons y tl)
/-- One array element inside `join`: `null`/`undefined` become empty. -/
def arrElemString : JsVal → String
  | .undefined => ""
  | .null => ""
  | .bool b => if b then "true" else "false"
  | .num n => numValToString n
  | .str s => s
  | .arr xs => arrJoinString xs
  | .obj _ => "[object Object]"
end

/-- JS exceptions that the embedded code can raise. -/
inductive JsErr where
  | invalidFormat (msg : String)
  | typeError (msg : String)
deriving DecidableEq, Repr

/-- JS property access `v[k]`: throws `TypeError` on `null`/`undefined`,
returns the field of an object (or `undefined`), and `undefined` on other
primitives and arrays (the embedded call sites never read `length` or
index properties). -/
def jsGet (v : JsVal) (k : String) : Except JsErr JsVal :=
  match v with
  | .undefined => .error (.typeError ("Cannot read properties of undefined (reading " ++ k ++ ")"))
  | .null => .error (.typeError ("Cannot read properties of null (reading " ++ k ++ ")"))
  | .obj fs => .ok ((fs.lookup k).getD .undefined)
  | _ => .ok .undefined

/-- Pair array elements with their stringified indices, starting at `i`. -/
def enumJsList (i : Nat) : JsList → List (String × JsVal)
  | .nil => []
  | .cons x xs => (Nat.repr i, x) :: enumJsList (i + 1) xs

/-- Pair string characters with their stringified indices, starting at `i`. -/
def enumChars (i : Nat) : List Char → List (String × JsVal)
  | [] => []
  | c :: cs => (Nat.repr i, JsVal.str (String.mk [c])) :: enumChars (i + 1) cs

/-- JS `Object.entries`: fields of an object, indexed elements of an array,
indexed characters of a string, empty for other primitives, `TypeError` on
`null`/`undefined`. -/
def jsEntries (v : JsVal) : Except JsErr (List (String × JsVal)) :=
  match v with
  | .undefined => .error (.typeError "Cannot convert undefined or null to object")
  | .null => .error (.typeError "Cannot convert undefined or null to object")
  | .obj fs => .ok fs.toList
  | .arr xs => .ok (enumJsList 0 xs)
  | .str s => .ok (enumChars 0 s.data)
  | _ => .ok []

/-- JS `Object.keys(v).length` for the values that can reach the guarded
call sites. -/
def jsKeysCount : JsVal → Nat
  | .obj fs => fs.length
  | .arr xs => xs.length
  | .str s => s.length
  | _ => 0

/-- Map `f` over characters, concatenating the produced fragments. -/
def concatMapChars (f : Char → List Char) : List Char → List Char
  | [] => []
  | c :: cs => f c ++ concatMapChars f cs

/-- One hexadecimal digit character. -/
def hexDigitChar (n : Nat) : Char :=
  if n < 10 then Char.ofNat (48 + n) else Char.ofNat (87 + n)

/-- JSON string escaping of one character. -/
def jsonEscapeChar (c : Char) : List Char :=
  if c = dquoteC then ['\\', dquoteC]
  else if c = '\\' then ['\\', '\\']
  else if c = '\n' then ['\\', 'n']
  else if c = '\t' then ['\\', 't']
  else if c = '\r' then ['\\', 'r']
  else if c.toNat = 8 then ['\\', 'b']
  else if c.toNat = 12 then ['\\', 'f']
  else if c.toNat < 32 then
    ['\\', 'u', '0', '0', hexDigitChar (c.toNat / 16), hexDigitChar (c.toNat % 16)]
  else [c]

/-- JSON string literal for `s`. -/
def jsonQuote (s : String) : String :=
  .mk (dquoteC :: concatMapChars jsonEscapeChar s.data ++ [dquoteC])

/-- `JSON.stringify` of a number (`Infinity` serializes as `null`). -/
def jsonNumString : NumVal → String
  | .fin n => jnumToString n
  | .posInf => "null"
  | .negInf => "null"

mutual
/-- `JSON.stringify(v, null, gap)` rendered at indentation `ind`;
`none` models the `undefined` result. -/
def jsonStr (gap ind : String) : JsVal → Option String
  | .undefined => none
  | .null => some "null"
  | .bool b => some (if b then "true" else "false")
  | .num n => some (jsonNumString n)
  | .str s => some (jsonQuote s)
  | .arr .nil => some "[]"
  | .arr (.cons x xs) =>
    some ("[\n"
      ++ String.intercalate ",\n"
          ((jsonArrItems gap (ind ++ gap) (.cons x xs)).map (fun it => ind ++ gap ++ it))
      ++ "\n" ++ ind ++ "]")
  | .obj fs =>
    match jsonObjItems gap (ind ++ gap) fs with
    | [] => some "\x7b\x7d"
    | it :: its =>
      some ("\x7b\n"
        ++ String.intercalate ",\n" ((it :: its).map (fun s => ind ++ gap ++ s))
        ++ "\n" ++ ind ++ "\x7d")
/-- Serialized array elements (`undefined` elements become `null`). -/
def jsonArrItems (gap ind : String) : JsList → List String
  | .nil => []
  | .cons x xs => (jsonStr gap ind x).getD "null" :: jsonArrItems gap ind xs
/-- Serialized object fields (fields whose value serializes to
`undefined` are skipped). -/
def jsonObjItems (gap ind : String) : JsFields → List String
  | .fnil => []
  | .fcons k v fs =>
    match jsonStr gap ind v with
    | none => jsonObjItems gap ind fs
    | some sv => (jsonQuote k ++ ": " ++ sv) :: jsonObjItems gap ind fs
end

/-- Replace every occurrence of character `c` by the fragment `rep`
(JS `str.replace(/c/g, rep)` for a single-character pattern). -/
def replaceAllChar (c : Char) (rep : List Char) : List Char → List Char
  | [] => []
  | x :: xs => if x = c then rep ++ replaceAllChar c rep xs else x :: replaceAllChar c rep xs

/-- JS `String(n).padStart(3, "0")` applied to a natural number. -/
def pad3 (n : Nat) : String :=
  let s := Nat.repr n
  if 3 ≤ s.length then s else String.mk (List.replicate (3 - s.length) '0') ++ s

/-- JS `str.split(sep)` for a single-character separator. -/
def splitChar (sep : Char) : List Char → List (List Char)
  | [] => [[]]
  | c :: cs =>
    if c = sep then [] :: splitChar sep cs
    else
      match splitChar sep cs with
      | [] => [[c]]
      | h :: t => (c :: h) :: t

/-- JS `str.split(",")`. -/
def jsSplitComma (s : String) : List String := (splitChar ',' s.data).map .mk

/-- Substring test (used only to state counterexamples). -/
def containsSub (pat s : String) : Bool :=
  s.data.tails.any (fun t => pat.data.isPrefixOf t)

/-!  Decision-table parser (`src/parsers/decision-table-parser.ts`). -/

/-- One header-keyed data row, as produced by `papaparse` with
`header: true` or assembled from a Markdown table: a JS string-valued
object in insertion order. -/
abbrev Row := List (String × String)

/-- JS `row[key]`: `none` models `undefined` (column absent). -/
def rowGet (row : Row) (key : String) : Option String :=
  (row.find? (fun kv => kv.1 == key)).map (fun kv => kv.2)

/-- Truthy access `row[key] || ...`: an empty cell behaves like an absent
one. -/
def tGet (row : Row) (key : String) : Option String :=
  match rowGet row key with
  | some v => if v = "" then none else some v
  | none => none

/-- The `specialColumns` set of `convertRowToTestCase`. -/
def specialColumns : List String :=
  ["id", "test id", "test_id", "name", "test name", "test_name", "description",
   "action", "actions", "expected result", "expected_result", "expected",
   "priority", "tags"]

/-- `parseValue`: coerce a cell to `true`/`false`/`null`/`undefined`, a
number when `Number(value)` is not `NaN` and the trimmed value is nonempty,
else keep the string. -/
def parseValue (value : String) : JsVal :=
  if value = "true" then .bool true
  else if value = "false" then .bool false
  else if value = "null" then .null
  else if value = "undefined" then .undefined
  else
    match jsStringToNumber value with
    | some n => if jsTrim value ≠ "" then .num n else .str value
    | none => .str value

/-- The canonical test case produced by the parser (runtime shape:
`priority` is whatever lower-cased string the source row carried). -/
structure TestCase where
  id : String
  name : String
  description : String
  conditions : List (String × JsVal)
  actions : List String
  expected_results : List String
  priority : String
  tags : List String

/-- `generateTestName(conditions, expected)`, with `Object.entries` of the
`conditions` argument precomputed by the caller.  The separator is the
literal three-character sequence U+00E2 U+2020 U+2019 present in the
source. -/
def generateTestName (conditions : List (String × JsVal)) (expected : JsVal) : String :=
  let conditionSummary :=
    String.intercalate ", "
      ((conditions.take 2).map (fun kv => kv.1 ++ ": " ++ toTemplateString kv.2))
  if truthy expected then
    conditionSummary ++ " â†’ " ++ toTemplateString expected
  else conditionSummary

/-- Auto id `TC${String(index + 1).padStart(3, "0")}`. -/
def autoId (index : Nat) : String := "TC" ++ pad3 (index + 1)

/-- `convertRowToTestCase(row, index)`. -/
def convertRowToTestCase (row : Row) (index : Nat) : TestCase :=
  let id := (tGet row "id" <|> tGet row "test id" <|> tGet row "test_id").getD (autoId index)
  let expectedResult :=
    (tGet row "expected result" <|> tGet row "expected_result" <|> tGet row "expected").getD ""
  let name :=
    (tGet row "name" <|> tGet row "test name" <|> tGet row "test_name").getD
      (generateTestName (row.map (fun kv => (kv.1, JsVal.str kv.2))) (.str expectedResult))
  let description := (tGet row "description").getD ""
  let priority :=
    match rowGet row "priority" with
    | some v => if jsToLower v = "" then "medium" else jsToLower v
    | none => "medium"
  let tags :=
    match tGet row "tags" with
    | some v => (jsSplitComma v).map jsTrim
    | none => []
  let actionsCell := (tGet row "action" <|> tGet row "actions").getD ""
  let actionsList := ((jsSplitComma actionsCell).map jsTrim).filter (fun a => a != "")
  let expectedList := ((jsSplitComma expectedResult).map jsTrim).filter (fun e => e != "")
  let conditions :=
    (row.filter (fun kv =>
        !(specialColumns.contains (jsToLower (jsTrim kv.1))) && kv.2 != "")).map
      (fun kv => (kv.1, parseValue kv.2))
  ⟨id, name, description, conditions, actionsList, expectedList, priority, tags⟩

/-- `rows.map((row, index) => convertRowToTestCase(row, index))`, with the
running index made explicit. -/
def convertRowsFrom (start : Nat) : List Row → List TestCase
  | [] => []
  | r :: rs => convertRowToTestCase r start :: convertRowsFrom (start + 1) rs

/-- `convertRowsToTestCases(rows)`. -/
def convertRowsToTestCases (rows : List Row) : List TestCase := convertRowsFrom 0 rows

/-- Part of `filePath` after the last `/` (POSIX `path.basename` without
suffix stripping). -/
def afterLastSlash (l : List Char) : List Char :=
  l.foldl (fun acc c => if c = '/' then [] else acc ++ [c]) []

/-- `path.extname` applied to a basename: from the last dot, unless the
only dot is the leading one. -/
def extnameList (b : List Char) : List Char :=
  if b.contains '.' then
    let suffix := b.reverse.takeWhile (fun c => c ≠ '.')
    let pos := b.length - suffix.length - 1
    if pos = 0 then [] else b.drop pos
  else []

/-- `path.basename(filePath, path.extname(filePath))`. -/
def basenameNoExt (p : String) : String :=
  let b := afterLastSlash p.data
  let ext := extnameList b
  if ext ≠ [] ∧ b ≠ ext ∧ ext.isSuffixOf b then .mk (b.take (b.length - ext.length))
  else .mk b

/-- Remove `suf` once from the end of `s` (anchored `replace(/suf$/,"")`). -/
def dropSuffixStr (suf : String) (s : String) : String :=
  if suf.data.isSuffixOf s.data then .mk (s.data.take (s.data.length - suf.data.length)) else s

/-- Replace every `c` by `r`. -/
def replaceChar (c r : Char) (l : List Char) : List Char :=
  l.map (fun x => if x = c then r else x)

/-- JS word character (`\w`). -/
def isWordChar (c : Char) : Bool :=
  decide (('a' ≤ c ∧ c ≤ 'z') ∨ ('A' ≤ c ∧ c ≤ 'Z') ∨ ('0' ≤ c ∧ c ≤ '9') ∨ c = '_')

/-- `replace(/\b\w/g, c => c.toUpperCase())`: upper-case word characters
that follow a non-word position. -/
def capitalizeWordStarts : Bool → List Char → List Char
  | _, [] => []
  | prevWord, c :: cs =>
    (if isWordChar c ∧ ¬ prevWord then c.toUpper else c)
      :: capitalizeWordStarts (isWordChar c) cs

/-- `extractFeatureName(filePath)`. -/
def extractFeatureName (filePath : String) : String :=
  let fileName := basenameNoExt filePath
  let s1 := dropSuffixStr "-decision-table" fileName
  let s2 := replaceChar '_' ' ' s1.data
  let s3 := replaceChar '-' ' ' s2
  .mk (capitalizeWordStarts false s3)

/-- Block tokens of `marked.lexer`, restricted to the shapes the parser
inspects; table cells carry their text. -/
inductive MdToken where
  | heading (depth : Nat) (text : String)
  | paragraph (text : String)
  | table (header : List String) (rows : List (List String))
  | other

/-- Assign `rowData[key] = v` with JS object semantics: an existing key
keeps its position, a new key appends. -/
def setKey : Row → String → String → Row
  | [], k, v => [(k, v)]
  | (k', v') :: rest, k, v =>
    if k' = k then (k', v) :: rest else (k', v') :: setKey rest k v

/-- Zip normalized headers against a data row (`row[i]?.text || ""`). -/
def buildRowData : List String → List String → Row → Row
  | [], _, acc => acc
  | h :: hs, cells, acc =>
    buildRowData hs (cells.drop 1) (setKey acc h (cells.headD ""))

/-- Convert one table's rows, restarting the auto-id index at 0. -/
def mdRowsFrom (headers : List String) (start : Nat) : List (List String) → List TestCase
  | [] => []
  | r :: rs =>
    convertRowToTestCase (buildRowData headers r []) start :: mdRowsFrom headers (start + 1) rs

/-- `parseMarkdownTable(tableToken)`: headers lower-cased and trimmed,
each row zipped and converted with its in-table index. -/
def parseMarkdownTable (headerCells : List String) (rows : List (List String)) : List TestCase :=
  mdRowsFrom (headerCells.map (fun h => jsToLower (jsTrim h))) 0 rows

/-- `undefined`/empty-string test for the running description. -/
def truthyOptStr : Option String → Bool
  | some s => s != ""
  | none => false

/-- The token loop of `parseMarkdown`: running feature name, description
and accumulated test cases. -/
def mdFold : List MdToken → String → Option String → List TestCase →
    String × Option String × List TestCase
  | [], f, d, tcs => (f, d, tcs)
  | t :: ts, f, d, tcs =>
    match t with
    | .heading depth text => mdFold ts (if depth = 1 ∧ f = "" then text else f) d tcs
    | .paragraph text => mdFold ts f (if truthyOptStr d then d else some text) tcs
    | .table header rows => mdFold ts f d (tcs ++ parseMarkdownTable header rows)
    | .other => mdFold ts f d tcs

/-- The canonical decision table (metadata fields inlined). -/
structure DecisionTable where
  feature : String
  description : Option String
  test_cases : List TestCase
  source : String
  format : String
  row_count : Option Nat

/-- `parseMarkdown(content, filePath)`, taking the lexer's token stream;
the feature name is initialized from the file path before the scan. -/
def parseMarkdown (tokens : List MdToken) (filePath : String) : DecisionTable :=
  let r := mdFold tokens (extractFeatureName filePath) none []
  ⟨r.1, r.2.1, r.2.2, filePath, "markdown", none⟩

/-- `parseCSV`, taking the rows `papaparse` produced (`header: true`,
`skipEmptyLines: true`). -/
def parseCSVRows (rows : List Row) (filePath : String) : DecisionTable :=
  ⟨extractFeatureName filePath, none, convertRowsToTestCases rows, filePath, "csv",
   some rows.length⟩

/-- `generateTestName(rule.conditions, rule.expected)` as called from
`parseJSON`: `Object.entries` may throw on `null`/`undefined`. -/
def generateTestNameJs (conditions expected : JsVal) : Except JsErr String := do
  let entries ← jsEntries conditions
  pure (generateTestName entries expected)

/-- `rule.name || this.generateTestName(rule.conditions, rule.expected)`:
the short-circuit keeps a truthy name, otherwise synthesizes one (which can
throw when `rule.conditions` is `null`/`undefined`). -/
def ruleName (rule namev : JsVal) : Except JsErr JsVal :=
  if truthy namev then pure namev
  else do
    let conds ← jsGet rule "conditions"
    let exp ← jsGet rule "expected"
    let s ← generateTestNameJs conds exp
    pure (JsVal.str s)

/-- Map one rule of the simplified JSON format to a test-case object. -/
def mapRule (rule : JsVal) (index : Nat) : Except JsErr JsVal := do
  let idv ← jsGet rule "id"
  let namev ← jsGet rule "name"
  let name ← ruleName rule namev
  let desc ← jsGet rule "description"
  let conds ← jsGet rule "conditions"
  let acts ← jsGet rule "actions"
  let exp ← jsGet rule "expected"
  let pr ← jsGet rule "priority"
  let tg ← jsGet rule "tags"
  pure (jsObj
    [("id", if truthy idv then idv else .str (autoId index)),
     ("name", name),
     ("description", desc),
     ("conditions", conds),
     ("actions", if truthy acts then acts else jsArr []),
     ("expected_results", if truthy exp then exp else jsArr []),
     ("priority", if truthy pr then pr else .str "medium"),
     ("tags", if truthy tg then tg else jsArr [])])

/-- `data.rules.map((rule, index) => ...)`. -/
def mapRules : List JsVal → Nat → Except JsErr (List JsVal)
  | [], _ => .ok []
  | r :: rest, index => do
    let tc ← mapRule r index
    let tcs ← mapRules rest (index + 1)
    pure (tc :: tcs)

/-- The `InvalidFormat` message thrown by `parseJSON`. -/
def invalidJsonMsg : String :=
  "Invalid JSON format. Expected \x22feature\x22 and \x22test_cases\x22 or \x22rules\x22"

/-- `parseJSON(content, filePath)`, taking the already-`JSON.parse`d
document.  Shape (a): truthy `feature` and `test_cases`, returned as-is.
Shape (b): truthy `feature` and `rules`, mapped.  Otherwise the
`InvalidFormat` error. -/
def parseJSON (data : JsVal) (filePath : String) : Except JsErr JsVal := do
  let f1 ← jsGet data "feature"
  let cond1 ←
    if truthy f1 then do
      let t ← jsGet data "test_cases"
      pure (truthy t)
    else pure false
  if cond1 then
    pure data
  else do
    let f2 ← jsGet data "feature"
    let cond2 ←
      if truthy f2 then do
        let r ← jsGet data "rules"
        pure (truthy r)
      else pure false
    if cond2 then do
      let rulesv ← jsGet data "rules"
      let rules ←
        match rulesv with
        | .arr xs => pure xs.toList
        | _ => .error (.typeError "data.rules.map is not a function")
      let tcs ← mapRules rules 0
      let desc ← jsGet data "description"
      pure (jsObj
        [("feature", f2), ("description", desc), ("test_cases", jsArr tcs),
         ("metadata", jsObj [("source", .str filePath), ("format", .str "json")])])
    else
      .error (.invalidFormat invalidJsonMsg)

/-!  Test-code generator (`src/generators/test-code-generator.ts`). -/

/-- One step object as the generator sees it at runtime: the generator
casts `steps.steps` by framework without inspecting `type`, so every field
of both step variants is modelled as a JS value (absent = `undefined`). -/
structure Step where
  action : JsVal := .undefined
  selector : JsVal := .undefined
  target : JsVal := .undefined
  value : JsVal := .undefined
  description : JsVal := .undefined
  method : JsVal := .undefined
  endpoint : JsVal := .undefined
  headers : JsVal := .undefined
  body : JsVal := .undefined
  expected_status : JsVal := .undefined
  save_response : JsVal := .undefined
  expected_body : JsVal := .undefined

/-- `TestSteps`: externally supplied steps for one test case. -/
structure TestSteps where
  test_case_id : String
  type : String
  steps : List Step

/-- `escapeString(str)`: `str.replace(/'/g, "\\'").replace(/\n/g, "\\n")`. -/
def escapeString (str : String) : String :=
  .mk (replaceAllChar '\n' ['\\', 'n'] (replaceAllChar quoteC ['\\', quoteC] str.data))

/-- Lower-case ASCII letter or digit. -/
def isLowerAlnum (c : Char) : Bool :=
  decide (('a' ≤ c ∧ c ≤ 'z') ∨ ('0' ≤ c ∧ c ≤ '9'))

/-- `replace(/[^a-z0-9]+/g, "-")`: collapse each maximal run of
non-alphanumeric characters to one hyphen.  The flag records whether the
previous character was part of such a run. -/
def collapseGo : Bool → List Char → List Char
  | _, [] => []
  | inRun, c :: cs =>
    if isLowerAlnum c then c :: collapseGo false cs
    else if inRun then collapseGo true cs
    else '-' :: collapseGo true cs

/-- Strip one leading hyphen (`replace(/^-|-$/g, "")`, leading half). -/
def stripLeadingHyphen : List Char → List Char
  | '-' :: t => t
  | l => l

/-- `sanitizeFileName(name)`. -/
def sanitizeFileName (name : String) : String :=
  let collapsed := collapseGo false (name.data.map Char.toLower)
  let noLead := stripLeadingHyphen collapsed
  .mk (stripLeadingHyphen noLead.reverse).reverse

/-- `generatePlaywrightStep(step, index)`. -/
def generatePlaywrightStep (step : Step) (index : Nat) : String :=
  let comment := "// " ++ toTemplateString step.description
  match step.action with
  | .str a =>
    if a = "navigate" then
      comment ++ "\n    await page.goto(\x27" ++ toTemplateString step.target ++ "\x27);"
    else if a = "click" then
      comment ++ "\n    await page.click(\x27" ++ toTemplateString step.selector ++ "\x27);"
    else if a = "fill" then
      comment ++ "\n    await page.fill(\x27" ++ toTemplateString step.selector ++ "\x27, \x27"
        ++ escapeString (toTemplateString step.value) ++ "\x27);"
    else if a = "select" then
      comment ++ "\n    await page.selectOption(\x27" ++ toTemplateString step.selector
        ++ "\x27, \x27" ++ escapeString (toTemplateString step.value) ++ "\x27);"
    else if a = "check" then
      comment ++ "\n    await page.check(\x27" ++ toTemplateString step.selector ++ "\x27);"
    else if a = "uncheck" then
      comment ++ "\n    await page.uncheck(\x27" ++ toTemplateString step.selector ++ "\x27);"
    else if a = "wait" then
      if truthy step.selector then
        comment ++ "\n    await page.waitForSelector(\x27" ++ toTemplateString step.selector
          ++ "\x27, \x7b state: \x27visible\x27 \x7d);"
      else if truthy step.value then
        comment ++ "\n    await page.waitForTimeout(" ++ toTemplateString step.value ++ ");"
      else
        comment ++ "\n    await page.waitForLoadState(\x27domcontentloaded\x27);"
    else if a = "assert" then
      match step.value with
      | .undefined =>
        comment ++ "\n    await expect(page.locator(\x27" ++ toTemplateString step.selector
          ++ "\x27)).toBeVisible();"
      | v =>
        comment ++ "\n    await expect(page.locator(\x27" ++ toTemplateString step.selector
          ++ "\x27)).toContainText(\x27" ++ escapeString (toTemplateString v) ++ "\x27);"
    else if a = "screenshot" then
      comment ++ "\n    await page.screenshot(\x7b path: \x27screenshots/step-"
        ++ Nat.repr (index + 1) ++ ".png\x27 \x7d);"
    else
      comment ++ "\n    // TODO: Implement " ++ a
  | v => comment ++ "\n    // TODO: Implement " ++ toTemplateString v

/-- Map `generatePlaywrightStep` over the steps with their indices. -/
def mapPwSteps (i : Nat) : List Step → List String
  | [] => []
  | s :: rest => generatePlaywrightStep s i :: mapPwSteps (i + 1) rest

/-- `generatePlaywrightTestCase(test)`. -/
def generatePlaywrightTestCase (testCase : TestCase) (steps : TestSteps) : String :=
  let testName := escapeString testCase.name
  let testSteps := String.intercalate "\n    " (mapPwSteps 0 steps.steps)
  "  test(\x27" ++ testName ++ "\x27, async (\x7b page \x7d) => \x7b\n    // "
    ++ (if testCase.description ≠ "" then testCase.description else testCase.name)
    ++ "\n" ++ testSteps ++ "\n  \x7d);"

/-- `generatePlaywrightTest(groupName, tests, language)`. -/
def generatePlaywrightTest (groupName : String) (tests : List (TestCase × TestSteps))
    (language : String) : String :=
  let _ := language
  "import \x7b test, expect \x7d from \x27@playwright/test\x27;\n\n"
    ++ "test.describe(\x27" ++ escapeString groupName ++ "\x27, () => \x7b\n"
    ++ String.intercalate "\n\n" (tests.map (fun t => generatePlaywrightTestCase t.1 t.2))
    ++ "\n\x7d);\n"

/-- `JSON.stringify(v, null, 6)` followed by `.replace(/\n/g, "\n      ")`,
with the template's `undefined` fallback. -/
def stringifyIndent6 (v : JsVal) : String :=
  .mk (replaceAllChar '\n' ('\n' :: "      ".data) ((jsonStr "      " "" v).getD "undefined").data)

/-- `JSON.stringify(v, null, 2)` followed by `.replace(/\n/g, "\n    ")`,
with the template's `undefined` fallback. -/
def stringifyIndent2 (v : JsVal) : String :=
  .mk (replaceAllChar '\n' ('\n' :: "    ".data) ((jsonStr "  " "" v).getD "undefined").data)

/-- `generateApiStep(step)`. -/
def generateApiStep (step : Step) : String :=
  let comment := "// " ++ toTemplateString step.description
  let ro1 := "\x7b\n      method: \x27" ++ toTemplateString step.method ++ "\x27,"
  let ro2 :=
    if truthy step.headers && decide (0 < jsKeysCount step.headers) then
      ro1 ++ "\n      headers: " ++ stringifyIndent6 step.headers ++ ","
    else ro1
  let ro3 :=
    if truthy step.body then
      ro2 ++ "\n      data: " ++ stringifyIndent6 step.body ++ ","
    else ro2
  let ro := ro3 ++ "\n    \x7d"
  let code := comment ++ "\n    const response = await request.fetch(\x27"
    ++ toTemplateString step.endpoint ++ "\x27, " ++ ro ++ ");\n    expect(response.status()).toBe("
    ++ (if truthy step.expected_status then toTemplateString step.expected_status else "200")
    ++ ");"
  let code2 :=
    if truthy step.save_response then
      let sr := toTemplateString step.save_response
      code ++ "\n    const " ++ sr ++ " = await response.json();"
        ++ "\n    savedResponses[\x27" ++ sr ++ "\x27] = " ++ sr ++ ";"
    else code
  if truthy step.expected_body then
    code2 ++ "\n    const body = await response.json();"
      ++ "\n    expect(body).toMatchObject(" ++ stringifyIndent2 step.expected_body ++ ");"
  else code2

/-- `generateApiTestCase(test)`. -/
def generateApiTestCase (testCase : TestCase) (steps : TestSteps) : String :=
  let testName := escapeString testCase.name
  let testSteps := String.intercalate "\n\n    " (steps.steps.map generateApiStep)
  "  test(\x27" ++ testName ++ "\x27, async (\x7b request \x7d) => \x7b\n    // "
    ++ (if testCase.description ≠ "" then testCase.description else testCase.name)
    ++ "\n    " ++ testSteps ++ "\n  \x7d);"

/-- `generateApiTest(groupName, tests, language)`. -/
def generateApiTest (groupName : String) (tests : List (TestCase × TestSteps))
    (language : String) : String :=
  let _ := language
  "import \x7b test, expect \x7d from \x27@playwright/test\x27;\n\n"
    ++ "let savedResponses: Record<string, any> = \x7b\x7d;\n\n"
    ++ "test.describe(\x27" ++ escapeString groupName ++ " API\x27, () => \x7b\n"
    ++ String.intercalate "\n\n" (tests.map (fun t => generateApiTestCase t.1 t.2))
    ++ "\n\x7d);\n"

/-- A generated file record. -/
structure GeneratedFile where
  path : String
  content : String
  test_count : Nat
  framework : String
deriving DecidableEq, Repr

/-- File-system oracle: whether creating the output directory succeeds,
whether each write succeeds, and the error messages produced otherwise. -/
structure Fs where
  mkdirOk : Bool
  writeOk : String → Bool
  writeErrMsg : String → String
  mkdirErrMsg : String

/-- `path.join(a, b)` for the shapes reaching it (no `..`/`.` segments). -/
def pathJoin (a b : String) : String :=
  if a = "" then b
  else if a.data.getLast? = some '/' then a ++ b
  else a ++ "/" ++ b

/-- `generateTestFile(groupName, tests, framework, language, style,
outputPath)`: render content by framework, derive the file name, write. -/
def generateTestFile (fs : Fs) (groupName : String) (tests : List (TestCase × TestSteps))
    (framework language style outputPath : String) : Except String GeneratedFile :=
  let _ := style
  let content :=
    if framework = "playwright" ∨ framework = "both" then
      generatePlaywrightTest groupName tests language
    else if framework = "api" then generateApiTest groupName tests language
    else ""
  let fileName :=
    sanitizeFileName groupName ++ ".spec." ++ (if language = "typescript" then "ts" else "js")
  let filePath := pathJoin outputPath fileName
  if fs.writeOk filePath then .ok ⟨filePath, content, tests.length, framework⟩
  else .error (fs.writeErrMsg filePath)

/-- `testCase.tags?.[0] || "general"`. -/
def groupNameOf (testCase : TestCase) : String :=
  match testCase.tags with
  | [] => "general"
  | t :: _ => if t = "" then "general" else t

/-- Append an entry to its group, creating the group at the end on first
sight (JS object insertion order). -/
def addToGroup (groups : List (String × List (TestCase × TestSteps))) (g : String)
    (entry : TestCase × TestSteps) : List (String × List (TestCase × TestSteps)) :=
  match groups with
  | [] => [(g, [entry])]
  | (k, es) :: rest =>
    if k = g then (k, es ++ [entry]) :: rest else (k, es) :: addToGroup rest g entry

/-- Loop body of `groupTestCases`: skip a test case with no matching
steps, otherwise add it to its tag bucket. -/
def groupStep (stepsList : List TestSteps) (groups : List (String × List (TestCase × TestSteps)))
    (testCase : TestCase) : List (String × List (TestCase × TestSteps)) :=
  match stepsList.find? (fun s => s.test_case_id == testCase.id) with
  | none => groups
  | some ts => addToGroup groups (groupNameOf testCase) (testCase, ts)

/-- `groupTestCases(testCases, steps)`. -/
def groupTestCases (testCases : List TestCase) (stepsList : List TestSteps) :
    List (String × List (TestCase × TestSteps)) :=
  testCases.foldl (groupStep stepsList) []

/-- A test-code generation request (after transport-level validation). -/
structure TestCodeGenerationRequest where
  test_cases : List TestCase
  steps : List TestSteps
  framework : String
  output_path : String
  language : Option String := none
  style : Option String := none

/-- `request.language || "typescript"` and friends. -/
def effOpt (o : Option String) (dflt : String) : String :=
  match o with
  | some s => if s = "" then dflt else s
  | none => dflt

/-- The generation result. -/
structure TestCodeGenerationResult where
  files_generated : List GeneratedFile
  total_tests : Nat
  success : Bool
  errors : Option (List String)
deriving DecidableEq, Repr

/-- The per-group loop of `generate`: collect generated files and
`Failed to generate ...` messages, never aborting the remaining groups. -/
def generateGroups (fs : Fs) (framework language style outputPath : String) :
    List (String × List (TestCase × TestSteps)) → List GeneratedFile × List String
  | [] => ([], [])
  | (g, tests) :: rest =>
    let res := generateGroups fs framework language style outputPath rest
    match generateTestFile fs g tests framework language style outputPath with
    | .ok file => (file :: res.1, res.2)
    | .error m => (res.1, ("Failed to generate " ++ g ++ ": " ++ m) :: res.2)

/-- `generate(request)`: on mkdir failure the outer catch returns an empty
result with the error; otherwise buckets are generated one by one, and
`success` is the emptiness of the error list. -/
def generate (fs : Fs) (request : TestCodeGenerationRequest) : TestCodeGenerationResult :=
  if fs.mkdirOk then
    let grouped := groupTestCases request.test_cases request.steps
    let res := generateGroups fs request.framework (effOpt request.language "typescript")
      (effOpt request.style "standard") request.output_path grouped
    ⟨res.1, request.test_cases.length, res.2.isEmpty,
     if res.2.isEmpty then none else some res.2⟩
  else ⟨[], 0, false, some [fs.mkdirErrMsg]⟩

/-!  Spec-side definitions (written from the specification's words, for
refinement comparisons) and concrete fixtures used by witnesses and
counterexamples. -/

/-- Spec §4.2: a cell "parses fully as a number" when `Number` accepts it
and the trimmed cell is nonempty. -/
def parsesFullyAsNumber (value : String) : Bool :=
  (jsStringToNumber value).isSome && jsTrim value != ""

/-- Spec-side coercion table of §4.2, written from the specification
sentence: the four keyword cells, then numbers, else the unchanged
string. -/
def parseValueSpec (value : String) : JsVal :=
  if value = "true" then .bool true
  else if value = "false" then .bool false
  else if value = "null" then .null
  else if value = "undefined" then .undefined
  else if parsesFullyAsNumber value then
    match jsStringToNumber value with
    | some n => .num n
    | none => .str value
  else .str value

/-- Spec-side per-character escape table of §4.7: apostrophe and newline
only, every other character unchanged. -/
def escChar (c : Char) : List Char :=
  if c = quoteC then ['\\', quoteC]
  else if c = '\n' then ['\\', 'n']
  else [c]

/-- Field lookup on an object value (for stating claims about `parseJSON`
results). -/
def objLookup (v : JsVal) (k : String) : Option JsVal :=
  match v with
  | .obj fs => fs.lookup k
  | _ => none

/-- Extract the `InvalidFormat` message of a failed parse, if any. -/
def invalidMsgOf : Except JsErr JsVal → Option String
  | .error (.invalidFormat m) => some m
  | _ => none

/-- Markdown fixture: H1 `Login Feature`, a paragraph, and a two-row
table, in a file named `table.md` (the repository's own parser test). -/
def mdToksC : List MdToken :=
  [.heading 1 "Login Feature", .paragraph "User login functionality",
   .table ["ID", "Name", "Email", "Expected"]
     [["TC001", "Valid Login", "test@example.com", "Dashboard"],
      ["TC002", "Invalid", "invalid@test.com", "Error"]]]

/-- Markdown fixture: two one-row tables without id columns. -/
def mdToksDup : List MdToken :=
  [.table ["scenario"] [["a"]], .table ["scenario"] [["b"]]]

/-- Row fixture with a structural `id` column, one condition column and a
two-valued expected cell, but no name column. -/
def rowNoName : Row := [("id", "T1"), ("mode", "fast"), ("expected", "A, B")]

/-- JSON fixture accepted as shape (a). -/
def docShapeA : JsVal :=
  jsObj [("feature", .str "User Authentication"),
         ("test_cases", jsArr [jsObj [("id", .str "TC001")]])]

/-- JSON fixture that contains both `feature` and `test_cases` fields but
whose `feature` value is the empty string. -/
def docEmptyFeature : JsVal :=
  jsObj [("feature", .str ""), ("test_cases", jsArr [jsObj [("id", .str "T1")]])]

/-- Rule fixture with only `id` and empty `conditions`. -/
def ruleMinimal : JsVal := jsObj [("id", .str "R1"), ("conditions", jsObj [])]

/-- The test case `mapRule` produces for `ruleMinimal` at index 0. -/
def ruleMinimalOut : JsVal :=
  jsObj [("id", .str "R1"), ("name", .str ""), ("description", .undefined),
         ("conditions", jsObj []), ("actions", jsArr []),
         ("expected_results", jsArr []), ("priority", .str "medium"),
         ("tags", jsArr [])]

/-- Web step fixture whose free text carries an apostrophe and a newline. -/
def rawStep : Step :=
  { action := .str "navigate", target := .str "a\x27b",
    description := .str "line1\nline2" }

/-- File-system oracle where everything succeeds. -/
def fsAll : Fs := ⟨true, fun _ => true, fun _ => "EACCES", "EACCES: permission denied"⟩

/-- File-system oracle failing every write whose path mentions `g1`. -/
def fsFailG1 : Fs := ⟨true, fun p => !(containsSub "g1" p), fun p => "EACCES " ++ p, "m"⟩

/-- Generator test-case fixture. -/
def tcGen : TestCase :=
  ⟨"TC001", "Valid login", "User logs in with valid credentials",
   [("email", .str "test@test.com")], ["Fill email"], ["Dashboard loads"], "medium", []⟩

/-- Matching web steps for `tcGen`. -/
def stepsGen : TestSteps :=
  ⟨"TC001", "web",
   [{ action := .str "navigate", target := .str "http://localhost:3000",
      description := .str "Navigate to login page" },
    { action := .str "fill", selector := .str "input[name=\x22email\x22]",
      value := .str "test@test.com", description := .str "Fill email" },
    { action := .str "click", selector := .str "button[type=\x22submit\x22]",
      description := .str "Click login" }]⟩

/-- A test case no `TestSteps` entry references. -/
def tcOrphan : TestCase := ⟨"TC999", "Orphan", "", [], [], [], "medium", []⟩

/-- Request mixing one matched and one unmatched test case. -/
def reqMix : TestCodeGenerationRequest :=
  { test_cases := [tcGen, tcOrphan], steps := [stepsGen], framework := "playwright",
    output_path := "/tmp/test-code-gen" }

/-- The same request with framework `both`. -/
def reqBoth : TestCodeGenerationRequest :=
  { test_cases := [tcGen], steps := [stepsGen], framework := "both",
    output_path := "/tmp/test-code-gen" }

/-- Two test cases in distinct tag buckets. -/
def tcG1 : TestCase := ⟨"A", "na", "", [], [], [], "medium", ["g1"]⟩

/-- Second bucketed test case. -/
def tcG2 : TestCase := ⟨"B", "nb", "", [], [], [], "medium", ["g2"]⟩

/-- Steps for `tcG1`. -/
def stG1 : TestSteps :=
  ⟨"A", "web", [{ action := .str "navigate", target := .str "u", description := .str "d" }]⟩

/-- Steps for `tcG2`. -/
def stG2 : TestSteps :=
  ⟨"B", "web", [{ action := .str "navigate", target := .str "u", description := .str "d" }]⟩

/-- Request producing the two buckets `g1` and `g2`. -/
def reqTwoGroups : TestCodeGenerationRequest :=
  { test_cases := [tcG1, tcG2], steps := [stG1, stG2], framework := "playwright",
    output_path := "out" }

/-!  Helper lemmas. -/

theorem exceptBindOk {α β : Type} (x : α) (f : α → Except JsErr β) :
    ((Except.ok x : Except JsErr α) >>= f) = f x := rfl

theorem exceptBindErr {α β : Type} (err : JsErr) (f : α → Except JsErr β) :
    ((Except.error err : Except JsErr α) >>= f) = .error err := rfl

theorem exceptPureEq {α : Type} (x : α) : (pure x : Except JsErr α) = .ok x := rfl

theorem replaceAllCharAppend (c : Char) (rep : List Char) (a b : List Char) :
    replaceAllChar c rep (a ++ b) = replaceAllChar c rep a ++ replaceAllChar c rep b := by
  induction a with
  | nil => rfl
  | cons x xs ih =>
    by_cases h : x = c <;> simp [replaceAllChar, h, ih]

theorem escapeChain (l : List Char) :
    replaceAllChar '\n' ['\\', 'n'] (replaceAllChar quoteC ['\\', quoteC] l)
      = concatMapChars escChar l := by
  induction l with
  | nil => rfl
  | cons c cs ih =>
    by_cases hq : c = quoteC
    · subst hq
      have h1 : replaceAllChar quoteC ['\\', quoteC] (quoteC :: cs)
          = ['\\', quoteC] ++ replaceAllChar quoteC ['\\', quoteC] cs := by
        simp [replaceAllChar]
      have h2 : replaceAllChar '\n' ['\\', 'n'] ['\\', quoteC] = ['\\', quoteC] := by decide
      rw [h1, replaceAllCharAppend, h2, ih]
      simp [concatMapChars, escChar]
    · by_cases hn : c = '\n'
      · subst hn
        have hn1 : ('\n' : Char) ≠ quoteC := by decide
        simp [replaceAllChar, hn1, ih, concatMapChars, escChar]
      · simp [replaceAllChar, hq, hn, concatMapChars, escChar, ih]

theorem mdFoldFeatureStable (tokens : List MdToken) :
    ∀ (f : String) (d : Option String) (tcs : List TestCase),
      f ≠ "" → (mdFold tokens f d tcs).1 = f := by
  induction tokens with
  | nil => intro f d tcs _; rfl
  | cons t ts ih =>
    intro f d tcs hf
    cases t with
    | heading depth text =>
      have hcond : ¬ (depth = 1 ∧ f = "") := fun hx => hf hx.2
      simp only [mdFold, if_neg hcond]
      exact ih f d tcs hf
    | paragraph text => simpa only [mdFold] using ih f _ tcs hf
    | table header rows => simpa only [mdFold] using ih f d _ hf
    | other => simpa only [mdFold] using ih f d tcs hf

theorem tGetNeEmpty {row : Row} {k v : String} (h : tGet row k = some v) : v ≠ "" := by
  revert h
  unfold tGet
  cases rowGet row k with
  | none => simp
  | some w =>
    by_cases hw : w = "" <;> simp [hw]
    rintro rfl
    exact hw

theorem orElseSomeCases {α : Type} {a b : Option α} {v : α} (h : (a <|> b) = some v) :
    a = some v ∨ b = some v := by
  cases a with
  | none => right; simpa using h
  | some x => left; simpa using h

theorem convertRowIdDef (row : Row) (index : Nat) :
    (convertRowToTestCase row index).id
      = (tGet row "id" <|> tGet row "test id" <|> tGet row "test_id").getD (autoId index) := rfl

theorem convertRowNameDef (row : Row) (index : Nat) :
    (convertRowToTestCase row index).name
      = (tGet row "name" <|> tGet row "test name" <|> tGet row "test_name").getD
          (generateTestName (row.map (fun kv => (kv.1, JsVal.str kv.2)))
            (.str ((tGet row "expected result" <|> tGet row "expected_result"
              <|> tGet row "expected").getD ""))) := rfl

theorem autoIdNeEmpty (index : Nat) : autoId index ≠ "" := by
  intro h
  have hlen := congrArg String.length h
  simp only [autoId, String.length_append] at hlen
  have h2 : ("TC" : String).length = 2 := rfl
  have h0 : ("" : String).length = 0 := rfl
  omega

theorem convertRowIdNeEmpty (row : Row) (index : Nat) :
    (convertRowToTestCase row index).id ≠ "" := by
  rw [convertRowIdDef]
  cases h : (tGet row "id" <|> tGet row "test id" <|> tGet row "test_id") with
  | none => simpa using autoIdNeEmpty index
  | some v =>
    simp only [Option.getD_some]
    rcases orElseSomeCases h with h1 | h23
    · exact tGetNeEmpty h1
    · rcases orElseSomeCases h23 with h2 | h3
      · exact tGetNeEmpty h2
      · exact tGetNeEmpty h3

theorem convertRowsFromLen (start : Nat) (rows : List Row) :
    (convertRowsFrom start rows).length = rows.length := by
  induction rows generalizing start with
  | nil => rfl
  | cons r rs ih => simp [convertRowsFrom, ih]

theorem convertRowsFromMemId (rows : List Row) :
    ∀ (start : Nat) (tc : TestCase), tc ∈ convertRowsFrom start rows → tc.id ≠ "" := by
  induction rows with
  | nil => intro start tc h; cases h
  | cons r rs ih =>
    intro start tc h
    rcases List.mem_cons.mp h with h | h
    · rw [h]; exact convertRowIdNeEmpty r start
    · exact ih (start + 1) tc h

theorem mdRowsFromLen (headers : List String) (start : Nat) (rows : List (List String)) :
    (mdRowsFrom headers start rows).length = rows.length := by
  induction rows generalizing start with
  | nil => rfl
  | cons r rs ih => simp [mdRowsFrom, ih]

theorem mdRowsFromMemId (headers : List String) (rows : List (List String)) :
    ∀ (start : Nat) (tc : TestCase), tc ∈ mdRowsFrom headers start rows → tc.id ≠ "" := by
  induction rows with
  | nil => intro start tc h; cases h
  | cons r rs ih =>
    intro start tc h
    rcases List.mem_cons.mp h with h | h
    · rw [h]; exact convertRowIdNeEmpty _ start
    · exact ih (start + 1) tc h

theorem mdFoldMemId (tokens : List MdToken) :
    ∀ (f : String) (d : Option String) (acc : List TestCase),
      (∀ tc ∈ acc, tc.id ≠ "") → ∀ tc ∈ (mdFold tokens f d acc).2.2, tc.id ≠ "" := by
  induction tokens with
  | nil => intro f d acc hacc tc htc; exact hacc tc htc
  | cons t ts ih =>
    intro f d acc hacc tc htc
    cases t with
    | heading depth text => exact ih _ d acc hacc tc htc
    | paragraph text => exact ih f _ acc hacc tc htc
    | table header rows =>
      refine ih f d _ ?_ tc htc
      intro tc' htc'
      rcases List.mem_append.mp htc' with h | h
      · exact hacc tc' h
      · exact mdRowsFromMemId _ _ 0 tc' h
    | other => exact ih f d acc hacc tc htc

theorem findIsSomeEqAny {α : Type} (l : List α) (p : α → Bool) :
    (l.find? p).isSome = l.any p := by
  induction l with
  | nil => rfl
  | cons x xs ih =>
    by_cases h : p x <;> simp [List.find?_cons, h, ih]

theorem groupStepSkip {stepsList : List TestSteps} {tc : TestCase}
    (h : stepsList.any (fun s => s.test_case_id == tc.id) = false)
    (groups : List (String × List (TestCase × TestSteps))) :
    groupStep stepsList groups tc = groups := by
  unfold groupStep
  cases hf : stepsList.find? (fun s => s.test_case_id == tc.id) with
  | none => rfl
  | some ts =>
    exfalso
    have := findIsSomeEqAny stepsList (fun s => s.test_case_id == tc.id)
    rw [hf, h] at this
    simp at this

theorem foldlGroupStepFilter (stepsList : List TestSteps) (l : List TestCase) :
    ∀ acc, (l.filter (fun tc => stepsList.any (fun s => s.test_case_id == tc.id))).foldl
        (groupStep stepsList) acc = l.foldl (groupStep stepsList) acc := by
  induction l with
  | nil => intro acc; rfl
  | cons tc l ih =>
    intro acc
    by_cases h : stepsList.any (fun s => s.test_case_id == tc.id)
    · simp only [List.filter_cons, if_pos h, List.foldl_cons]
      exact ih _
    · have hb : stepsList.any (fun s => s.test_case_id == tc.id) = false := by
        simpa using h
      simp only [List.filter_cons, hb, List.foldl_cons, groupStepSkip hb]
      exact ih acc

theorem groupTestCasesFilter (testCases : List TestCase) (stepsList : List TestSteps) :
    groupTestCases (testCases.filter (fun tc => stepsList.any (fun s => s.test_case_id == tc.id)))
        stepsList = groupTestCases testCases stepsList :=
  foldlGroupStepFilter stepsList testCases []

theorem generateGroupsSplit (fs : Fs) (framework language style outputPath : String)
    (l : List (String × List (TestCase × TestSteps))) :
    generateGroups fs framework language style outputPath l =
      (l.filterMap (fun g =>
         (generateTestFile fs g.1 g.2 framework language style outputPath).toOption),
       l.filterMap (fun g =>
         match generateTestFile fs g.1 g.2 framework language style outputPath with
         | .ok _ => none
         | .error m => some ("Failed to generate " ++ g.1 ++ ": " ++ m))) := by
  induction l with
  | nil => rfl
  | cons g rest ih =>
    obtain ⟨gn, gt⟩ := g
    cases hr : generateTestFile fs gn gt framework language style outputPath with
    | ok file => simp [generateGroups, hr, ih, List.filterMap_cons, Except.toOption]
    | error m => simp [generateGroups, hr, ih, List.filterMap_cons, Except.toOption]

theorem generateTestFileBoth (fs : Fs) (gn : String) (gt : List (TestCase × TestSteps))
    (language style outputPath : String) :
    generateTestFile fs gn gt "both" language style outputPath
      = (generateTestFile fs gn gt "playwright" language style outputPath).map
          (fun f => ⟨f.path, f.content, f.test_count, "both"⟩) := by
  unfold generateTestFile
  cases hw : fs.writeOk (pathJoin outputPath
      (sanitizeFileName gn ++ ".spec." ++ (if language = "typescript" then "ts" else "js"))) <;>
    simp [hw, Except.map]

theorem generateGroupsBoth (fs : Fs) (language style outputPath : String)
    (l : List (String × List (TestCase × TestSteps))) :
    ((generateGroups fs "both" language style outputPath l).1.map
        (fun f => (f.path, f.content, f.test_count))
      = (generateGroups fs "playwright" language style outputPath l).1.map
        (fun f => (f.path, f.content, f.test_count)))
    ∧ (generateGroups fs "both" language style outputPath l).2
      = (generateGroups fs "playwright" language style outputPath l).2 := by
  induction l with
  | nil => exact ⟨rfl, rfl⟩
  | cons g rest ih =>
    obtain ⟨gn, gt⟩ := g
    have hb := generateTestFileBoth fs gn gt language style outputPath
    cases hp : generateTestFile fs gn gt "playwright" language style outputPath with
    | ok file =>
      rw [hp] at hb
      simp only [Except.map] at hb
      simp [generateGroups, hb, hp, ih.1, ih.2]
    | error m =>
      rw [hp] at hb
      simp only [Except.map] at hb
      simp [generateGroups, hb, hp, ih.1, ih.2]

theorem generateGroupsContentPlaywright (fs : Fs) (framework language style outputPath : String)
    (hfw : framework = "playwright" ∨ framework = "both")
    (l : List (String × List (TestCase × TestSteps))) :
    ∀ f ∈ (generateGroups fs framework language style outputPath l).1,
      ∃ g ∈ l, f.content = generatePlaywrightTest g.1 g.2 language := by
  induction l with
  | nil => intro f hf; cases hf
  | cons g rest ih =>
    obtain ⟨gn, gt⟩ := g
    intro f hf
    cases hr : generateTestFile fs gn gt framework language style outputPath with
    | ok file =>
      simp only [generateGroups, hr] at hf
      rcases List.mem_cons.mp hf with hf | hf
      · refine ⟨(gn, gt), List.mem_cons_self _ _, ?_⟩
        subst hf
        revert hr
        unfold generateTestFile
        rw [if_pos hfw]
        cases hw : fs.writeOk (pathJoin outputPath (sanitizeFileName gn ++ ".spec."
            ++ (if language = "typescript" then "ts" else "js"))) <;> simp [hw]
        intro hfile
        rw [← hfile]
      · obtain ⟨g', hg', hc⟩ := ih f hf
        exact ⟨g', List.mem_cons_of_mem _ hg', hc⟩
    | error m =>
      simp only [generateGroups, hr] at hf
      obtain ⟨g', hg', hc⟩ := ih f hf
      exact ⟨g', List.mem_cons_of_mem _ hg', hc⟩

theorem generateGroupsLenAllOk (fs : Fs) (framework language style outputPath : String)
    (hok : ∀ p, fs.writeOk p = true)
    (l : List (String × List (TestCase × TestSteps))) :
    (generateGroups fs framework language style outputPath l).1.length = l.length := by
  induction l with
  | nil => rfl
  | cons g rest ih =>
    obtain ⟨gn, gt⟩ := g
    have hfile : generateTestFile fs gn gt framework language style outputPath
        = .ok ⟨pathJoin outputPath (sanitizeFileName gn ++ ".spec."
            ++ (if language = "typescript" then "ts" else "js")),
          (if framework = "playwright" ∨ framework = "both" then
            generatePlaywrightTest gn gt language
          else if framework = "api" then generateApiTest gn gt language else ""),
          gt.length, framework⟩ := by
      simp [generateTestFile, hok]
    simp [generateGroups, hfile, ih]

/-!  Claim theorems. -/

set_option maxRecDepth 10000

/-- Claim C1 (corrected), counterexample: the Markdown fixture whose first
level-1 heading reads `Login Feature`, parsed from the file `table.md`,
yields the file-name-derived feature `Table`, not `Login Feature` — the
claim's "regardless of the file's name" fails (the repository's own parser
test expects `Table` here). -/
theorem markdown_h1_feature_counterexample :
    (parseMarkdown mdToksC "table.md").feature = "Table"
    ∧ (parseMarkdown mdToksC "table.md").feature ≠ "Login Feature" := by
  refine ⟨rfl, ?_⟩
  intro h
  exact absurd ((rfl : (parseMarkdown mdToksC "table.md").feature = "Table").symm.trans h)
    (by decide)

/-- Claim C1 (corrected, amended): the feature name of a parsed Markdown
document is the one derived from the file path whenever that derivation is
nonempty; the first level-1 heading can only ever set the feature when the
path-derived name is the empty string, because the heading branch is
guarded by the falsiness of the already-initialized feature name. -/
theorem markdown_feature_from_path (tokens : List MdToken) (filePath : String)
    (h : extractFeatureName filePath ≠ "") :
    (parseMarkdown tokens filePath).feature = extractFeatureName filePath := by
  have := mdFoldFeatureStable tokens (extractFeatureName filePath) none [] h
  simpa [parseMarkdown] using this

/-- Witness for C1's amended theorem at the Markdown fixture. -/
theorem markdown_feature_from_path_witness :
    extractFeatureName "table.md" ≠ ""
    ∧ (parseMarkdown mdToksC "table.md").feature = "Table" := by
  refine ⟨by decide, ?_⟩
  exact markdown_feature_from_path mdToksC "table.md" (by decide)

/-- Claim C3 (corrected), counterexample: for the row
`id=T1, mode=fast, expected="A, B"` with no name column, the synthesized
name is built from the first two entries of the whole row (the structural
`id` column included), with the raw expected cell appended after the
source's literal `â†’` byte sequence — not `"mode: fast → A"` as the claim
(first two condition entries, first expected element, a real arrow)
predicts. -/
theorem row_name_synthesis_counterexample :
    (convertRowToTestCase rowNoName 0).name = "id: T1, mode: fast â†’ A, B"
    ∧ (convertRowToTestCase rowNoName 0).name ≠ "mode: fast → A" := by
  refine ⟨rfl, ?_⟩
  intro h
  exact absurd ((rfl : (convertRowToTestCase rowNoName 0).name
    = "id: T1, mode: fast â†’ A, B").symm.trans h) (by decide)

/-- Claim C3 (corrected, amended): when a CSV/Markdown row supplies no
name column, the synthesized name is `"key: value, key: value"` over the
first two entries of the entire row record (structural columns included),
and when the raw expected cell is nonempty the whole cell (not just its
first comma-separated element) is appended after the literal
`" â†’ "` separator found in the source. -/
theorem row_name_synthesis (row : Row) (index : Nat)
    (h1 : tGet row "name" = none) (h2 : tGet row "test name" = none)
    (h3 : tGet row "test_name" = none) :
    (convertRowToTestCase row index).name =
      (if ((tGet row "expected result" <|> tGet row "expected_result"
            <|> tGet row "expected").getD "") = ""
       then String.intercalate ", " ((row.take 2).map (fun kv => kv.1 ++ ": " ++ kv.2))
       else String.intercalate ", " ((row.take 2).map (fun kv => kv.1 ++ ": " ++ kv.2))
         ++ " â†’ " ++ ((tGet row "expected result" <|> tGet row "expected_result"
            <|> tGet row "expected").getD "")) := by
  rw [convertRowNameDef, h1, h2, h3]
  simp only [Option.none_orElse, Option.getD_none]
  unfold generateTestName
  have hmap : ((row.map (fun kv => (kv.1, JsVal.str kv.2))).take 2).map
      (fun kv => kv.1 ++ ": " ++ toTemplateString kv.2)
      = (row.take 2).map (fun kv => kv.1 ++ ": " ++ kv.2) := by
    rw [← List.map_take, List.map_map]
    rfl
  rw [hmap]
  by_cases hE : ((tGet row "expected result" <|> tGet row "expected_result"
      <|> tGet row "expected").getD "") = "" <;>
    simp [truthy, toTemplateString, hE]

/-- Witness for C3's amended theorem at the fixture row. -/
theorem row_name_synthesis_witness :
    tGet rowNoName "name" = none
    ∧ (convertRowToTestCase rowNoName 0).name = "id: T1, mode: fast â†’ A, B" := by
  refine ⟨rfl, ?_⟩
  exact row_name_synthesis rowNoName 0 rfl rfl rfl

/-- Claim C5 (corrected), counterexample: the priority cell `URGENT` does
not pass through unchanged — it is lower-cased to `urgent`. -/
theorem priority_counterexample :
    (convertRowToTestCase [("priority", "URGENT")] 0).priority = "urgent"
    ∧ (convertRowToTestCase [("priority", "URGENT")] 0).priority ≠ "URGENT" := by
  refine ⟨rfl, ?_⟩
  intro h
  exact absurd ((rfl : (convertRowToTestCase [("priority", "URGENT")] 0).priority
    = "urgent").symm.trans h) (by decide)

/-- Claim C5 (corrected, amended): a present priority cell is lower-cased
and then passed through without validation (values outside
low/medium/high survive); an absent or empty cell defaults to `medium`. -/
theorem priority_lenient_lowercased :
    (∀ (row : Row) (index : Nat),
      (convertRowToTestCase row index).priority =
        match rowGet row "priority" with
        | some v => if jsToLower v = "" then "medium" else jsToLower v
        | none => "medium")
    ∧ (convertRowToTestCase [("priority", "HIGH")] 0).priority = "high"
    ∧ (convertRowToTestCase [("priority", "Critical")] 0).priority = "critical"
    ∧ "critical" ∉ ["low", "medium", "high"]
    ∧ (convertRowToTestCase [("id", "X")] 0).priority = "medium" :=
  ⟨fun _ _ => rfl, rfl, rfl, by decide, rfl⟩

/-- Witness for C5's amended theorem at a concrete row. -/
theorem priority_lenient_lowercased_witness :
    (convertRowToTestCase [("priority", "UNKNOWN")] 0).priority = "unknown" :=
  (priority_lenient_lowercased.1 [("priority", "UNKNOWN")] 0).trans rfl

/-- Claim C6 (confirmed): `parseValue` realizes exactly the coercion table
of the specification — the four keyword strings, then any cell that parses
fully as a number (JS `Number` semantics on a nonempty trimmed cell)
becomes that number, and every other string is kept unchanged; in
particular `"42"` ↦ 42, `"99.99"` ↦ 99.99. -/
theorem parse_value_coercion :
    (∀ value : String, parseValue value = parseValueSpec value)
    ∧ parseValue "true" = .bool true
    ∧ parseValue "false" = .bool false
    ∧ parseValue "null" = .null
    ∧ parseValue "undefined" = .undefined
    ∧ parseValue "42" = .num (.fin ⟨42, 0⟩)
    ∧ parseValue "99.99" = .num (.fin ⟨9999, 2⟩)
    ∧ parseValue "test@example.com" = .str "test@example.com" := by
  refine ⟨?_, rfl, rfl, rfl, rfl, rfl, rfl, rfl⟩
  intro value
  unfold parseValue parseValueSpec parsesFullyAsNumber
  by_cases h1 : value = "true"
  · simp [h1]
  by_cases h2 : value = "false"
  · simp [h1, h2]
  by_cases h3 : value = "null"
  · simp [h1, h2, h3]
  by_cases h4 : value = "undefined"
  · simp [h1, h2, h3, h4]
  simp only [if_neg h1, if_neg h2, if_neg h3, if_neg h4]
  cases hn : jsStringToNumber value with
  | none => simp [hn]
  | some n =>
    by_cases ht : jsTrim value = "" <;> simp [hn, ht]

/-- Claim C9 (corrected), counterexample: free text interpolated outside
`escapeString` is embedded verbatim — a `navigate` step whose target
carries an apostrophe and whose description carries a newline produces
generated source containing the raw apostrophe and the raw newline, with
no `\'`/`\n` replacement. -/
theorem escape_unescaped_counterexample :
    generatePlaywrightStep rawStep 0
      = "// line1\nline2\n    await page.goto(\x27a\x27b\x27);"
    ∧ containsSub "a\x27b" (generatePlaywrightStep rawStep 0) = true
    ∧ containsSub "a\\\x27b" (generatePlaywrightStep rawStep 0) = false
    ∧ containsSub "line1\nline2" (generatePlaywrightStep rawStep 0) = true
    ∧ containsSub "line1\\nline2" (generatePlaywrightStep rawStep 0) = false := by
  refine ⟨rfl, ?_, ?_, ?_, ?_⟩ <;> decide

/-- Claim C9 (corrected, amended): the renderer's escape transform
`escapeString` — applied to suite names, test names, and the stringified
values of fill/select/assert steps — rewrites exactly apostrophes to `\'`
and newlines to the two characters `\n`, leaving every other character
unchanged; interpolations that bypass `escapeString` (selectors, targets,
descriptions, endpoints) are embedded verbatim. -/
theorem escape_scope :
    (∀ s : String, escapeString s = .mk (concatMapChars escChar s.data))
    ∧ (∀ c : Char, c ≠ quoteC → c ≠ '\n' → escChar c = [c])
    ∧ (∀ step : Step, step.action = .str "fill" →
        generatePlaywrightStep step 0
          = "// " ++ toTemplateString step.description
            ++ "\n    await page.fill(\x27" ++ toTemplateString step.selector
            ++ "\x27, \x27" ++ escapeString (toTemplateString step.value) ++ "\x27);") := by
  refine ⟨?_, ?_, ?_⟩
  · intro s
    unfold escapeString
    rw [escapeChain]
  · intro c hc hn
    simp [escChar, hc, hn]
  · intro step ha
    unfold generatePlaywrightStep
    rw [ha]
    rfl

/-- Witness for C9's amended theorem at concrete inputs. -/
theorem escape_scope_witness :
    escapeString "a\x27b\nc" = "a\\\x27b\\nc"
    ∧ ('x' : Char) ≠ quoteC
    ∧ escChar 'x' = ['x'] := by
  refine ⟨?_, by decide, escape_scope.2.1 'x' (by decide) (by decide)⟩
  have h := escape_scope.1 "a\x27b\nc"
  simpa using h

/-- Claim C4 (corrected), counterexample: a Markdown document with two
one-row tables and no id columns parses to a `DecisionTable` whose two test
cases both carry the id `TC001` — the ids of one returned table are not
pairwise distinct, because auto-id sequencing restarts per table. -/
theorem duplicate_ids_counterexample :
    ((parseMarkdown mdToksDup "cases.md").test_cases.map (fun tc => tc.id))
      = ["TC001", "TC001"]
    ∧ ¬ ((parseMarkdown mdToksDup "cases.md").test_cases.map (fun tc => tc.id)).Nodup := by
  refine ⟨rfl, ?_⟩
  have h2 : ¬ (["TC001", "TC001"] : List String).Nodup := by decide
  exact fun h => h2 h

/-- Claim C4 (corrected, amended): every valid input producing N data rows
parses to exactly N test cases, each with a non-empty id; a row without an
id cell is auto-assigned `TC` followed by its 1-based (per-table) index
zero-padded to three digits — but the returned ids need not be pairwise
distinct (explicit duplicates pass through, and Markdown auto-ids restart
at `TC001` in every table). -/
theorem parse_counts_and_ids :
    (∀ rows : List Row, (convertRowsToTestCases rows).length = rows.length)
    ∧ (∀ (rows : List Row) (tc : TestCase), tc ∈ convertRowsToTestCases rows → tc.id ≠ "")
    ∧ (∀ (row : Row) (index : Nat),
        (tGet row "id" <|> tGet row "test id" <|> tGet row "test_id") = none →
        (convertRowToTestCase row index).id = "TC" ++ pad3 (index + 1))
    ∧ (∀ (headerCells : List String) (rows : List (List String)),
        (parseMarkdownTable headerCells rows).length = rows.length)
    ∧ (∀ (tokens : List MdToken) (filePath : String) (tc : TestCase),
        tc ∈ (parseMarkdown tokens filePath).test_cases → tc.id ≠ "") := by
  refine ⟨?_, ?_, ?_, ?_, ?_⟩
  · intro rows
    exact convertRowsFromLen 0 rows
  · intro rows tc h
    exact convertRowsFromMemId rows 0 tc h
  · intro row index h
    rw [convertRowIdDef, h]
    rfl
  · intro headerCells rows
    exact mdRowsFromLen _ 0 rows
  · intro tokens filePath tc h
    exact mdFoldMemId tokens _ none [] (fun tc' h' => absurd h' (List.not_mem_nil tc')) tc h

/-- Witness for C4's amended theorem at concrete inputs. -/
theorem parse_counts_and_ids_witness :
    (convertRowsToTestCases [[("name", "X")], [("name", "Y")]]).length = 2
    ∧ (tGet [("name", "X")] "id" <|> tGet [("name", "X")] "test id"
        <|> tGet [("name", "X")] "test_id") = none
    ∧ (convertRowToTestCase [("name", "X")] 0).id = "TC" ++ pad3 1 :=
  ⟨parse_counts_and_ids.1 _, rfl, parse_counts_and_ids.2.2.1 [("name", "X")] 0 rfl⟩

/-- Claim C2 (confirmed): provided the output directory is created
successfully, a test case whose id matches no `TestSteps.test_case_id`
contributes to no generated file — the generated files coincide with those
of the request restricted to matched test cases — while `total_tests`
still reports the original number of test cases in the request. -/
theorem generate_unmatched_excluded (fs : Fs) (request : TestCodeGenerationRequest)
    (h : fs.mkdirOk = true) :
    (generate fs request).files_generated
      = (generate fs { request with
          test_cases := request.test_cases.filter
            (fun tc => request.steps.any (fun s => s.test_case_id == tc.id)) }).files_generated
    ∧ (generate fs request).total_tests = request.test_cases.length := by
  constructor
  · simp only [generate, h, if_pos]
    rw [groupTestCasesFilter]
  · simp [generate, h]

/-- Witness for C2: a request with one matched and one orphan test case
generates the same single file as the matched-only request, and still
counts two tests. -/
theorem generate_unmatched_excluded_witness :
    (generate fsAll reqMix).files_generated
      = (generate fsAll { reqMix with
          test_cases := reqMix.test_cases.filter
            (fun tc => reqMix.steps.any (fun s => s.test_case_id == tc.id)) }).files_generated
    ∧ (generate fsAll reqMix).total_tests = 2
    ∧ ((generate fsAll reqMix).files_generated.map (fun f => f.path))
      = ["/tmp/test-code-gen/general.spec.ts"] :=
  ⟨(generate_unmatched_excluded fsAll reqMix rfl).1,
   (generate_unmatched_excluded fsAll reqMix rfl).2, rfl⟩

/-- Claim C8 (confirmed): provided the output directory is created
successfully, per-bucket generation failures are collected — the generated
files are exactly the successful buckets' files and the error list holds
exactly one `Failed to generate ...` entry per failing bucket, so one
failure never prevents the remaining buckets — and the success flag is
true exactly when the error list is empty. -/
theorem generate_error_aggregation (fs : Fs) (request : TestCodeGenerationRequest)
    (h : fs.mkdirOk = true) :
    ((generate fs request).success = true ↔ (generate fs request).errors = none)
    ∧ (generate fs request).files_generated
      = (groupTestCases request.test_cases request.steps).filterMap
          (fun g => (generateTestFile fs g.1 g.2 request.framework
            (effOpt request.language "typescript") (effOpt request.style "standard")
            request.output_path).toOption)
    ∧ (generate fs request).errors
      = (if ((groupTestCases request.test_cases request.steps).filterMap
            (fun g => match generateTestFile fs g.1 g.2 request.framework
                (effOpt request.language "typescript") (effOpt request.style "standard")
                request.output_path with
              | .ok _ => none
              | .error m => some ("Failed to generate " ++ g.1 ++ ": " ++ m))).isEmpty
         then none
         else some ((groupTestCases request.test_cases request.steps).filterMap
            (fun g => match generateTestFile fs g.1 g.2 request.framework
                (effOpt request.language "typescript") (effOpt request.style "standard")
                request.output_path with
              | .ok _ => none
              | .error m => some ("Failed to generate " ++ g.1 ++ ": " ++ m)))) := by
  have hsplit := generateGroupsSplit fs request.framework (effOpt request.language "typescript")
    (effOpt request.style "standard") request.output_path
    (groupTestCases request.test_cases request.steps)
  refine ⟨?_, ?_, ?_⟩
  · simp only [generate, h, if_pos]
    cases hb : (generateGroups fs request.framework (effOpt request.language "typescript")
        (effOpt request.style "standard") request.output_path
        (groupTestCases request.test_cases request.steps)).2.isEmpty <;> simp [hb]
  · simp only [generate, h, if_pos]
    rw [hsplit]
  · simp only [generate, h, if_pos]
    rw [hsplit]

/-- Witness for C8: with writes to the `g1` bucket failing, the `g2` file
is still generated, the single error names `g1`, and success is false. -/
theorem generate_error_aggregation_witness :
    ((generate fsFailG1 reqTwoGroups).success = true
      ↔ (generate fsFailG1 reqTwoGroups).errors = none)
    ∧ ((generate fsFailG1 reqTwoGroups).files_generated.map (fun f => f.path))
      = ["out/g2.spec.ts"]
    ∧ (generate fsFailG1 reqTwoGroups).errors
      = some ["Failed to generate g1: EACCES out/g1.spec.ts"]
    ∧ (generate fsFailG1 reqTwoGroups).success = false :=
  ⟨(generate_error_aggregation fsFailG1 reqTwoGroups rfl).1, rfl, rfl, rfl⟩

/-- Claim C10 (confirmed): a request with framework `both` takes the
Playwright branch — bucket for bucket, the generated paths, contents and
test counts are byte-identical to those of the same request with framework
`playwright`, every generated file's content is the Playwright web-step
rendering (so no API-style content is produced), and when the directory
and all writes succeed exactly one file is generated per bucket. -/
theorem framework_both_playwright_content (fs : Fs) (request : TestCodeGenerationRequest)
    (hf : request.framework = "both") :
    ((generate fs request).files_generated.map (fun f => (f.path, f.content, f.test_count))
      = (generate fs { request with framework := "playwright" }).files_generated.map
          (fun f => (f.path, f.content, f.test_count)))
    ∧ (∀ f ∈ (generate fs request).files_generated,
        ∃ g ∈ groupTestCases request.test_cases request.steps,
          f.content = generatePlaywrightTest g.1 g.2 (effOpt request.language "typescript"))
    ∧ (fs.mkdirOk = true → (∀ p, fs.writeOk p = true) →
        (generate fs request).files_generated.length
          = (groupTestCases request.test_cases request.steps).length) := by
  refine ⟨?_, ?_, ?_⟩
  · cases hm : fs.mkdirOk with
    | false => simp [generate, hm]
    | true =>
      simp only [generate, hm, if_pos, hf]
      exact (generateGroupsBoth fs (effOpt request.language "typescript")
        (effOpt request.style "standard") request.output_path
        (groupTestCases request.test_cases request.steps)).1
  · intro f hfm
    cases hm : fs.mkdirOk with
    | false => rw [show (generate fs request).files_generated = [] by simp [generate, hm]] at hfm
               cases hfm
    | true =>
      simp only [generate, hm, if_pos, hf] at hfm
      exact generateGroupsContentPlaywright fs "both" (effOpt request.language "typescript")
        (effOpt request.style "standard") request.output_path (Or.inr rfl) _ f hfm
  · intro hm hok
    simp only [generate, hm, if_pos, hf]
    exact generateGroupsLenAllOk fs "both" (effOpt request.language "typescript")
      (effOpt request.style "standard") request.output_path hok _

/-- Witness for C10 at the `both` fixture request. -/
theorem framework_both_playwright_content_witness :
    ((generate fsAll reqBoth).files_generated.map (fun f => (f.path, f.content, f.test_count))
      = (generate fsAll { reqBoth with framework := "playwright" }).files_generated.map
          (fun f => (f.path, f.content, f.test_count)))
    ∧ (generate fsAll reqBoth).files_generated.length
      = (groupTestCases reqBoth.test_cases reqBoth.steps).length
    ∧ ((generate fsAll reqBoth).files_generated.map (fun f => f.framework)) = ["both"] :=
  ⟨(framework_both_playwright_content fsAll reqBoth rfl).1,
   (framework_both_playwright_content fsAll reqBoth rfl).2.2 rfl (fun _ => rfl), rfl⟩

theorem mapRuleOkFields {rule : JsVal} {index : Nat} {out : JsVal}
    (hout : mapRule rule index = .ok out) :
    ∃ idv nameFinal desc conds acts exp pr tg,
      jsGet rule "id" = .ok idv
      ∧ jsGet rule "actions" = .ok acts
      ∧ jsGet rule "expected" = .ok exp
      ∧ jsGet rule "priority" = .ok pr
      ∧ jsGet rule "tags" = .ok tg
      ∧ out = jsObj
          [("id", if truthy idv then idv else .str (autoId index)),
           ("name", nameFinal), ("description", desc), ("conditions", conds),
           ("actions", if truthy acts then acts else jsArr []),
           ("expected_results", if truthy exp then exp else jsArr []),
           ("priority", if truthy pr then pr else .str "medium"),
           ("tags", if truthy tg then tg else jsArr [])] := by
  unfold mapRule at hout
  cases h1 : jsGet rule "id" with
  | error e => rw [h1, exceptBindErr] at hout; cases hout
  | ok idv =>
  rw [h1, exceptBindOk] at hout
  cases h2 : jsGet rule "name" with
  | error e => rw [h2, exceptBindErr] at hout; cases hout
  | ok namev =>
  rw [h2, exceptBindOk] at hout
  cases hname : ruleName rule namev with
  | error e => rw [hname, exceptBindErr] at hout; cases hout
  | ok nameFinal =>
  rw [hname, exceptBindOk] at hout
  cases h3 : jsGet rule "description" with
  | error e => rw [h3, exceptBindErr] at hout; cases hout
  | ok desc =>
  rw [h3, exceptBindOk] at hout
  cases h4 : jsGet rule "conditions" with
  | error e => rw [h4, exceptBindErr] at hout; cases hout
  | ok conds =>
  rw [h4, exceptBindOk] at hout
  cases h5 : jsGet rule "actions" with
  | error e => rw [h5, exceptBindErr] at hout; cases hout
  | ok acts =>
  rw [h5, exceptBindOk] at hout
  cases h6 : jsGet rule "expected" with
  | error e => rw [h6, exceptBindErr] at hout; cases hout
  | ok exp =>
  rw [h6, exceptBindOk] at hout
  cases h7 : jsGet rule "priority" with
  | error e => rw [h7, exceptBindErr] at hout; cases hout
  | ok pr =>
  rw [h7, exceptBindOk] at hout
  cases h8 : jsGet rule "tags" with
  | error e => rw [h8, exceptBindErr] at hout; cases hout
  | ok tg =>
  rw [h8, exceptBindOk] at hout
  rw [exceptPureEq] at hout
  injection hout with hout
  exact ⟨idv, nameFinal, desc, conds, acts, exp, pr, tg,
    rfl, rfl, rfl, rfl, rfl, hout.symm⟩

/-- Claim C7 (corrected), counterexample: a document that contains both a
`feature` field and a `test_cases` field, but whose `feature` value is the
empty string, is rejected with the `InvalidFormat` error instead of being
returned as-is — field presence is not enough, the values must be truthy. -/
theorem parse_json_presence_counterexample :
    (objLookup docEmptyFeature "feature").isSome = true
    ∧ (objLookup docEmptyFeature "test_cases").isSome = true
    ∧ invalidMsgOf (parseJSON docEmptyFeature "table.json") = some invalidJsonMsg := by
  exact ⟨rfl, rfl, rfl⟩

/-- Claim C7 (corrected, amended): `parseJSON` accepts exactly two
document shapes, tested by JS truthiness rather than field presence —
(a) truthy `feature` and `test_cases`: the document is returned as-is;
(b) truthy `feature` and `rules`: when `rules` is an array whose mapping
succeeds, each mapped test case defaults `actions` and `expected_results`
to empty arrays, `priority` to `medium` and `tags` to empty — and a
document where `feature` is falsy, or where `test_cases` and `rules` are
both falsy, is rejected with the `InvalidFormat` error naming both
accepted shapes. -/
theorem parse_json_shapes :
    (∀ (data : JsVal) (filePath : String) (f t : JsVal),
      jsGet data "feature" = .ok f → truthy f = true →
      jsGet data "test_cases" = .ok t → truthy t = true →
      parseJSON data filePath = .ok data)
    ∧ (∀ (data : JsVal) (filePath : String) (f : JsVal),
        jsGet data "feature" = .ok f → truthy f = false →
        parseJSON data filePath = .error (.invalidFormat invalidJsonMsg))
    ∧ (∀ (data : JsVal) (filePath : String) (f t r : JsVal),
        jsGet data "feature" = .ok f → truthy f = true →
        jsGet data "test_cases" = .ok t → truthy t = false →
        jsGet data "rules" = .ok r → truthy r = false →
        parseJSON data filePath = .error (.invalidFormat invalidJsonMsg))
    ∧ (∀ (data : JsVal) (filePath : String) (f t : JsVal) (xs : JsList)
        (tcs : List JsVal) (desc : JsVal),
        jsGet data "feature" = .ok f → truthy f = true →
        jsGet data "test_cases" = .ok t → truthy t = false →
        jsGet data "rules" = .ok (.arr xs) →
        mapRules xs.toList 0 = .ok tcs →
        jsGet data "description" = .ok desc →
        parseJSON data filePath = .ok (jsObj
          [("feature", f), ("description", desc), ("test_cases", jsArr tcs),
           ("metadata", jsObj [("source", .str filePath), ("format", .str "json")])]))
    ∧ (∀ (rule : JsVal) (index : Nat) (out a e p t : JsVal),
        mapRule rule index = .ok out →
        jsGet rule "actions" = .ok a → truthy a = false →
        jsGet rule "expected" = .ok e → truthy e = false →
        jsGet rule "priority" = .ok p → truthy p = false →
        jsGet rule "tags" = .ok t → truthy t = false →
        objLookup out "actions" = some (jsArr [])
        ∧ objLookup out "expected_results" = some (jsArr [])
        ∧ objLookup out "priority" = some (.str "medium")
        ∧ objLookup out "tags" = some (jsArr [])) := by
  refine ⟨?_, ?_, ?_, ?_, ?_⟩
  · intro data filePath f t hf htf ht htt
    simp [parseJSON, hf, htf, ht, htt, exceptBindOk, exceptPureEq]
  · intro data filePath f hf htf
    simp [parseJSON, hf, htf, exceptBindOk, exceptPureEq]
  · intro data filePath f t r hf htf ht htt hr htr
    simp [parseJSON, hf, htf, ht, htt, hr, htr, exceptBindOk, exceptPureEq]
  · intro data filePath f t xs tcs desc hf htf ht htt hrules hmap hdesc
    have hart : truthy (JsVal.arr xs) = true := rfl
    simp [parseJSON, hf, htf, ht, htt, hrules, hart, hmap, hdesc,
      exceptBindOk, exceptPureEq]
  · intro rule index out a e p t hout ha hta he hte hp htp ht htt
    obtain ⟨idv, nameFinal, desc, conds, acts, exp, pr, tg,
      _, hacts, hexp, hpr, htg, hshape⟩ := mapRuleOkFields hout
    rw [ha] at hacts
    rw [he] at hexp
    rw [hp] at hpr
    rw [ht] at htg
    injection hacts with hacts
    injection hexp with hexp
    injection hpr with hpr
    injection htg with htg
    subst hacts hexp hpr htg
    subst hshape
    refine ⟨?_, ?_, ?_, ?_⟩ <;>
      simp [objLookup, jsObj, jsFieldsOf, JsFields.lookup, hta, hte, htp, htt]

/-- Witness for C7's amended theorem: shape (a) pass-through at a concrete
document, and the defaulting of a minimal rule mapped by `mapRule`. -/
theorem parse_json_shapes_witness :
    parseJSON docShapeA "table.json" = .ok docShapeA
    ∧ mapRule ruleMinimal 0 = .ok ruleMinimalOut
    ∧ (objLookup ruleMinimalOut "actions" = some (jsArr [])
       ∧ objLookup ruleMinimalOut "expected_results" = some (jsArr [])
       ∧ objLookup ruleMinimalOut "priority" = some (.str "medium")
       ∧ objLookup ruleMinimalOut "tags" = some (jsArr [])) :=
  ⟨parse_json_shapes.1 docShapeA "table.json" (.str "User Authentication")
      (jsArr [jsObj [("id", .str "TC001")]]) rfl rfl rfl rfl,
   rfl,
   parse_json_shapes.2.2.2.2 ruleMinimal 0 ruleMinimalOut .undefined .undefined .undefined .undefined
     rfl rfl rfl rfl rfl rfl rfl rfl rfl⟩

end DTMcp
